import Mathlib

/-
Verification of the USB Host UVC driver interface (usb_host_uvc).

The repository ships the public interface usb/uvc_host.h: driver and stream
configuration structures, the device event enumeration, the frame structure,
and the documented return-value contracts of the API functions.  The
streaming engine itself (payload reassembler, frame buffer pool, dispatcher)
is specified in the design document; it is embedded here as an executable
state machine, faithful to the specified transition table, and the header
contracts (event enumeration, callback ownership protocol, error codes of
install/uninstall/open/stop/close/frame_return) are embedded from the header.

Machine integers do not matter here: byte values, lengths and counts are
modelled as Nat; fallible operations return an error code paired with the
resulting state.
-/

/-- Error codes from esp_err.h used by the header contracts. -/
inductive EspErr where
  | ESP_OK
  | ESP_FAIL
  | ESP_ERR_NO_MEM
  | ESP_ERR_INVALID_ARG
  | ESP_ERR_INVALID_STATE
  | ESP_ERR_NOT_FOUND
  | ESP_ERR_TIMEOUT
deriving DecidableEq

/-- Event types of this driver (enum uvc_host_dev_event in uvc_host.h). -/
inductive uvc_host_dev_event where
  | UVC_HOST_TRANSFER_ERROR
  | UVC_HOST_DEVICE_DISCONNECTED
  | UVC_HOST_FRAME_BUFFER_OVERFLOW
  | UVC_HOST_FRAME_BUFFER_UNDERFLOW
deriving DecidableEq

/-- A frame buffer: accumulated payload bytes plus the error flag accumulated
from Error bits of the payload headers of this frame (uvc_host_frame_t data
and the per-frame error accumulation of the Reassembly State). -/
structure Frame where
  data : List Nat
  errFlag : Bool
deriving DecidableEq

/-- Per-stream engine state: the frame buffer pool (free and delivered
counters), the reassembler (in-progress buffer and last-seen FID), and the
observable outputs of the dispatcher (delivered frames and raised events,
each in order). -/
structure RState where
  freeCount : Nat
  delivered : Nat
  filling : Option Frame
  lastFid : Option Bool
  frames : List Frame
  events : List uvc_host_dev_event
deriving DecidableEq

/- UVC payload header wire format: byte 0 is the header length, byte 1 is the
bit field bmHeaderInfo with FID in bit 0, EOF in bit 1 and ERR in bit 6;
payload bytes follow the header to the end of the packet. -/

/-- Byte 0 of a payload packet: the header length field. -/
def headerLen (p : List Nat) : Nat := p.headD 0

/-- Byte 1 of a payload packet: the bmHeaderInfo bit field. -/
def flagsByte (p : List Nat) : Nat := p.getD 1 0

/-- Header validity: the header length byte must be nonzero and must not
exceed the packet size. -/
def headerValid (p : List Nat) : Bool :=
  decide (headerLen p ≠ 0) && decide (headerLen p ≤ p.length)

/-- Frame-ID toggle bit (bit 0 of bmHeaderInfo). -/
def fidBit (p : List Nat) : Bool := flagsByte p % 2 == 1

/-- End-Of-Frame bit (bit 1 of bmHeaderInfo). -/
def eofBit (p : List Nat) : Bool := flagsByte p / 2 % 2 == 1

/-- Error bit (bit 6 of bmHeaderInfo). -/
def errBit (p : List Nat) : Bool := flagsByte p / 64 % 2 == 1

/-- Payload bytes of one packet: everything after the payload header. -/
def payloadOf (p : List Nat) : List Nat := p.drop (headerLen p)

/-- Modelled from the spec: the Event/Frame Dispatcher hand-off of one
completed frame (the implementation behind uvc_host_frame_callback_t is not
in the repository).  The frame is appended to the list of frames handed to
the user.  Per the header contract of the frame callback: when the callback
returns true the frame was processed and the UVC driver owns it again, so
its buffer goes straight back to the free pool; when it returns false the
user keeps the frame and must return it later via uvc_host_frame_return, so
the buffer is accounted as delivered. -/
def deliverFrame (cb : Frame → Bool) (s : RState) (f : Frame) : RState :=
  if cb f then
    { s with frames := s.frames ++ [f], freeCount := s.freeCount + 1 }
  else
    { s with frames := s.frames ++ [f], delivered := s.delivered + 1 }

/-- Modelled from the spec: steps 3 to 5 of the Payload Reassembler
transition table (the reassembler implementation is not in the repository).
Appends the packet payload to the in-progress buffer; on overflow the
buffer is discarded back to the pool and the overflow event is raised; on
EOF the finished frame is handed to the dispatcher.  In IDLE state (no
in-progress buffer) the packet is skipped. -/
def fillStep (cap : Nat) (cb : Frame → Bool) (s : RState) (p : List Nat) : RState :=
  match s.filling with
  | none => s
  | some buf =>
    if cap < buf.data.length + (payloadOf p).length then
      { s with filling := none, freeCount := s.freeCount + 1,
               events := s.events ++ [uvc_host_dev_event.UVC_HOST_FRAME_BUFFER_OVERFLOW] }
    else
      let buf2 : Frame := ⟨buf.data ++ payloadOf p, buf.errFlag || errBit p⟩
      if eofBit p then
        { deliverFrame cb s buf2 with filling := none }
      else
        { s with filling := some buf2 }

/-- Whether a packet FID starts a new frame given the last-seen FID
(step 2 of the Payload Reassembler transition table). -/
def isNewRun (lastFid : Option Bool) (fid : Bool) : Bool :=
  match lastFid with
  | none => true
  | some f => fid != f

/-- Modelled from the spec: the Payload Reassembler transition on one parsed
payload packet (the reassembler implementation is not in the repository).
A packet with an invalid header length is dropped whole with no state
change.  A FID toggle (or the first packet ever) starts a new frame: a
stale in-progress buffer is emitted as a best-effort partial frame, then a
fresh buffer is acquired from the pool, raising the underflow event when
the pool is exhausted.  Otherwise the packet continues the current frame. -/
def processPacket (cap : Nat) (cb : Frame → Bool) (s : RState) (p : List Nat) : RState :=
  if headerValid p then
    if isNewRun s.lastFid (fidBit p) then
      let s1 := match s.filling with
        | some buf => { deliverFrame cb s buf with filling := none }
        | none => s
      if s1.freeCount = 0 then
        { s1 with lastFid := some (fidBit p),
                  events := s1.events ++ [uvc_host_dev_event.UVC_HOST_FRAME_BUFFER_UNDERFLOW] }
      else
        fillStep cap cb { s1 with freeCount := s1.freeCount - 1, lastFid := some (fidBit p),
                                  filling := some ⟨[], false⟩ } p
    else
      fillStep cap cb s p
  else s

/-- Processing of a whole sequence of payload packets in arrival order. -/
def processPackets (cap : Nat) (cb : Frame → Bool) (s : RState) (ps : List (List Nat)) : RState :=
  ps.foldl (processPacket cap cb) s

/-- Modelled from the spec: uvc_host_frame_return (its implementation is not
in the repository).  Returns a delivered frame buffer to the pool; fails
with ESP_FAIL when no frame is outstanding, per the header contract that
ESP_FAIL means the frame was not returned to the driver. -/
def uvc_host_frame_return (s : RState) : EspErr × RState :=
  if s.delivered = 0 then (EspErr.ESP_FAIL, s)
  else (EspErr.ESP_OK, { s with delivered := s.delivered - 1, freeCount := s.freeCount + 1 })

/-- Concatenation of the non-header payload bytes of a packet sequence. -/
def runData (pkts : List (List Nat)) : List Nat := (pkts.map payloadOf).flatten

/-- Whether any packet of a sequence carries the Error bit. -/
def runErr (pkts : List (List Nat)) : Bool := pkts.any errBit

/-- A well-formed non-final packet of a FID run: valid header, the run FID,
no EOF. -/
def midPacket (fid : Bool) (p : List Nat) : Bool :=
  headerValid p && fidBit p == fid && !eofBit p

/-- The final packet of a FID run: valid header, the run FID, EOF set. -/
def eofPacket (fid : Bool) (p : List Nat) : Bool :=
  headerValid p && fidBit p == fid && eofBit p

/-- Packets of a run given as a body of non-final packets plus the final
EOF packet. -/
def runPkts (r : Bool × List (List Nat) × List Nat) : List (List Nat) :=
  r.2.1 ++ [r.2.2]

/-- Well-formed sequences of FID runs: the FID of every run differs from
the previous FID (alternation), every run consists of non-final packets
followed by a single EOF packet, and every run's total payload fits the
frame buffer capacity. -/
def AltRunsB (cap : Nat) (prev : Option Bool) : List (Bool × List (List Nat) × List Nat) → Bool
  | [] => true
  | (fid, body, lastp) :: rest =>
      decide (prev ≠ some fid)
        && body.all (fun p => midPacket fid p)
        && eofPacket fid lastp
        && decide ((runData (body ++ [lastp])).length ≤ cap)
        && AltRunsB cap (some fid) rest

/-- State after one complete well-formed run delivered from state s: one
buffer was taken from the pool, the finished frame went through the
dispatcher, the run FID became the last-seen FID. -/
def afterRun (cb : Frame → Bool) (s : RState) (fid : Bool) (f : Frame) : RState :=
  { deliverFrame cb { s with freeCount := s.freeCount - 1 } f with
      lastFid := some fid, filling := none }

/-- Capacity discipline of one stream state: every frame handed to the user
and the in-progress buffer hold at most cap bytes. -/
def capOKb (cap : Nat) (s : RState) : Bool :=
  s.frames.all (fun f => decide (f.data.length ≤ cap))
    && (match s.filling with
        | none => true
        | some b => decide (b.data.length ≤ cap))

/-- Stream Controller life cycle states (CLOSED, OPENED, STREAMING). -/
inductive StreamLife where
  | CLOSED
  | OPENED
  | STREAMING
deriving DecidableEq

/-- One stream as seen through its handle: the controller life-cycle state
plus the engine state behind it. -/
structure CtrlState where
  life : StreamLife
  stream : RState
deriving DecidableEq

/-- Modelled from the spec: uvc_host_stream_stop (its implementation is not
in the repository).  Stop acts from STREAMING only: it retires the transfer
slots, drains the reassembler to IDLE and discards an in-progress buffer
back to the pool without delivering it; in any other life-cycle state it
fails with ESP_ERR_INVALID_STATE and changes nothing. -/
def uvc_host_stream_stop (c : CtrlState) : EspErr × CtrlState :=
  match c.life with
  | StreamLife.STREAMING =>
    let s := c.stream
    let s2 := match s.filling with
      | some _ => { s with filling := none, freeCount := s.freeCount + 1 }
      | none => s
    (EspErr.ESP_OK, { life := StreamLife.OPENED, stream := s2 })
  | _ => (EspErr.ESP_ERR_INVALID_STATE, c)

/-- Modelled from the spec: uvc_host_stream_close (its implementation is not
in the repository).  Close acts from OPENED (not streaming) only and
requires every delivered frame buffer to have been returned; otherwise it
fails with ESP_ERR_INVALID_STATE and changes nothing. -/
def uvc_host_stream_close (c : CtrlState) : EspErr × CtrlState :=
  match c.life with
  | StreamLife.OPENED =>
    if c.stream.delivered = 0 then
      (EspErr.ESP_OK, { life := StreamLife.CLOSED, stream := c.stream })
    else (EspErr.ESP_ERR_INVALID_STATE, c)
  | _ => (EspErr.ESP_ERR_INVALID_STATE, c)

/-- Configuration structure of the USB Host UVC driver
(uvc_host_driver_config_t in uvc_host.h). -/
structure uvc_host_driver_config_t where
  driver_task_stack_size : Nat
  driver_task_priority : Nat
  xCoreID : Int
  create_background_task : Bool
deriving DecidableEq

/-- Modelled from the spec: the default driver configuration substituted for
a NULL driver_config pointer by uvc_host_install (its concrete values are
not in the repository; no claim depends on them). -/
def uvc_default_driver_config : uvc_host_driver_config_t :=
  { driver_task_stack_size := 4096, driver_task_priority := 5,
    xCoreID := 0, create_background_task := true }

/-- Process-wide driver state: whether the driver is installed, the
configuration it was installed with, the number of opened and not yet
closed streams, and the bytes of live allocations made for streams. -/
structure DriverState where
  installed : Bool
  config : Option uvc_host_driver_config_t
  openStreams : Nat
  allocated : Nat
deriving DecidableEq

/-- Modelled from the spec: uvc_host_install (its implementation is not in
the repository).  Per the header contract: fails with
ESP_ERR_INVALID_STATE when the driver is already installed or the USB Host
Library is not installed, with ESP_ERR_NO_MEM when there is not enough free
memory, and otherwise installs the driver; a NULL driver_config means the
default configuration is used. -/
def uvc_host_install (d : DriverState) (usbHostInstalled : Bool)
    (cfg : Option uvc_host_driver_config_t) (memAvail : Bool) : EspErr × DriverState :=
  if d.installed || !usbHostInstalled then (EspErr.ESP_ERR_INVALID_STATE, d)
  else if !memAvail then (EspErr.ESP_ERR_NO_MEM, d)
  else (EspErr.ESP_OK,
    { d with installed := true, config := some (cfg.getD uvc_default_driver_config) })

/-- Modelled from the spec: uvc_host_uninstall (its implementation is not in
the repository).  Per the header contract: fails with
ESP_ERR_INVALID_STATE when the driver was not installed before or not all
UVC streams are closed; otherwise the driver is uninstalled. -/
def uvc_host_uninstall (d : DriverState) : EspErr × DriverState :=
  if d.installed && d.openStreams == 0 then
    (EspErr.ESP_OK, { d with installed := false, config := none })
  else (EspErr.ESP_ERR_INVALID_STATE, d)

/-- Stream configuration fields checked at open time
(uvc_host_stream_config_t and its advanced part in uvc_host.h). -/
structure uvc_host_stream_config_t where
  number_of_frame_buffers : Nat
  frame_size : Nat
  number_of_urbs : Nat
  urb_size : Nat
deriving DecidableEq

/-- Open-time configuration validation: at least one frame buffer, a
positive URB count and a positive URB size. -/
def cfgValid (c : uvc_host_stream_config_t) : Bool :=
  decide (0 < c.number_of_frame_buffers)
    && decide (0 < c.number_of_urbs)
    && decide (0 < c.urb_size)

/-- Frame buffer sizing, from the header documentation of the frame_size
field: 0 means use dwMaxVideoFrameSize from the format negotiation result,
a nonzero value means use the user-provided frame size. -/
def frame_buffer_size (frame_size : Nat) (dwMaxVideoFrameSize : Nat) : Nat :=
  if frame_size = 0 then dwMaxVideoFrameSize else frame_size

/-- The sizing policy as worded by the specification, for comparison: the
larger of the user-specified frame_size and the negotiated maximum frame
size. -/
def frame_buffer_size_spec (frame_size : Nat) (dwMaxVideoFrameSize : Nat) : Nat :=
  max frame_size dwMaxVideoFrameSize

/-- Modelled from the spec: uvc_host_stream_open (its implementation is not
in the repository).  Per the header contract: ESP_ERR_INVALID_STATE when
the driver is not installed, ESP_ERR_INVALID_ARG for a NULL or invalid
configuration, ESP_ERR_NOT_FOUND when no matching UVC stream or format is
found (negotiated is the format negotiation result, none on failure),
ESP_ERR_NO_MEM when allocation fails; on success a handle is produced and
the pool and ring allocations are recorded.  Every failure leaves the
driver state unchanged (full rollback) and produces no handle. -/
def uvc_host_stream_open (d : DriverState) (cfg : Option uvc_host_stream_config_t)
    (memAvail : Bool) (negotiated : Option Nat) : EspErr × Option Nat × DriverState :=
  if !d.installed then (EspErr.ESP_ERR_INVALID_STATE, none, d)
  else
    match cfg with
    | none => (EspErr.ESP_ERR_INVALID_ARG, none, d)
    | some c =>
      if !cfgValid c then (EspErr.ESP_ERR_INVALID_ARG, none, d)
      else
        match negotiated with
        | none => (EspErr.ESP_ERR_NOT_FOUND, none, d)
        | some m =>
          if !memAvail then (EspErr.ESP_ERR_NO_MEM, none, d)
          else
            (EspErr.ESP_OK, some d.openStreams,
              { d with openStreams := d.openStreams + 1,
                       allocated := d.allocated
                         + c.number_of_frame_buffers * frame_buffer_size c.frame_size m
                         + c.number_of_urbs * c.urb_size })

theorem processPackets_nil (cap : Nat) (cb : Frame → Bool) (s : RState) :
    processPackets cap cb s [] = s := rfl

theorem processPackets_cons (cap : Nat) (cb : Frame → Bool) (s : RState)
    (p : List Nat) (ps : List (List Nat)) :
    processPackets cap cb s (p :: ps) = processPackets cap cb (processPacket cap cb s p) ps := rfl

theorem processPackets_append (cap : Nat) (cb : Frame → Bool) (s : RState)
    (a b : List (List Nat)) :
    processPackets cap cb s (a ++ b) = processPackets cap cb (processPackets cap cb s a) b := by
  simp [processPackets, List.foldl_append]

theorem processPacket_invalid (cap : Nat) (cb : Frame → Bool) (s : RState) (p : List Nat)
    (hv : headerValid p = false) :
    processPacket cap cb s p = s := by
  simp [processPacket, hv]

theorem processPacket_skip (cap : Nat) (cb : Frame → Bool) (s : RState) (p : List Nat)
    (hfill : s.filling = none)
    (hfid : headerValid p = false ∨ s.lastFid = some (fidBit p)) :
    processPacket cap cb s p = s := by
  rcases hfid with h | h
  · exact processPacket_invalid cap cb s p h
  · cases hv : headerValid p with
    | false => exact processPacket_invalid cap cb s p hv
    | true => simp [processPacket, hv, isNewRun, h, fillStep, hfill]

theorem processPacket_cont (cap : Nat) (cb : Frame → Bool) (s : RState) (p : List Nat)
    (hv : headerValid p = true) (hlf : s.lastFid = some (fidBit p)) :
    processPacket cap cb s p = fillStep cap cb s p := by
  simp [processPacket, hv, isNewRun, hlf]

theorem processPacket_start (cap : Nat) (cb : Frame → Bool) (s : RState) (p : List Nat)
    (hv : headerValid p = true) (hfill : s.filling = none)
    (hlf : s.lastFid ≠ some (fidBit p)) (hfc : 1 ≤ s.freeCount) :
    processPacket cap cb s p
      = fillStep cap cb
          { s with freeCount := s.freeCount - 1, lastFid := some (fidBit p),
                   filling := some ⟨[], false⟩ } p := by
  have hnew : isNewRun s.lastFid (fidBit p) = true := by
    cases hl : s.lastFid with
    | none => rfl
    | some b =>
      have hb : fidBit p ≠ b := fun he => hlf (by rw [hl, he])
      simp [isNewRun, hb]
  have hne : ¬ s.freeCount = 0 := by omega
  simp [processPacket, hv, hnew, hfill, hne]

theorem processPacket_underflow (cap : Nat) (cb : Frame → Bool) (s : RState) (p : List Nat)
    (hv : headerValid p = true) (hfill : s.filling = none)
    (hlf : s.lastFid ≠ some (fidBit p)) (hfc : s.freeCount = 0) :
    processPacket cap cb s p
      = { s with lastFid := some (fidBit p),
                 events := s.events
                   ++ [uvc_host_dev_event.UVC_HOST_FRAME_BUFFER_UNDERFLOW] } := by
  have hnew : isNewRun s.lastFid (fidBit p) = true := by
    cases hl : s.lastFid with
    | none => rfl
    | some b =>
      have hb : fidBit p ≠ b := fun he => hlf (by rw [hl, he])
      simp [isNewRun, hb]
  simp [processPacket, hv, hnew, hfill, hfc]

theorem fillStep_idle (cap : Nat) (cb : Frame → Bool) (s : RState) (p : List Nat)
    (hfill : s.filling = none) :
    fillStep cap cb s p = s := by
  simp [fillStep, hfill]

theorem fillStep_over (cap : Nat) (cb : Frame → Bool) (s : RState) (p : List Nat) (buf : Frame)
    (hfill : s.filling = some buf)
    (hover : cap < buf.data.length + (payloadOf p).length) :
    fillStep cap cb s p
      = { s with filling := none, freeCount := s.freeCount + 1,
                 events := s.events
                   ++ [uvc_host_dev_event.UVC_HOST_FRAME_BUFFER_OVERFLOW] } := by
  simp [fillStep, hfill, hover]

theorem fillStep_mid (cap : Nat) (cb : Frame → Bool) (s : RState) (p : List Nat) (buf : Frame)
    (hfill : s.filling = some buf)
    (hle : buf.data.length + (payloadOf p).length ≤ cap)
    (heof : eofBit p = false) :
    fillStep cap cb s p
      = { s with filling := some ⟨buf.data ++ payloadOf p, buf.errFlag || errBit p⟩ } := by
  simp [fillStep, hfill, Nat.not_lt.mpr hle, heof]

theorem fillStep_eof (cap : Nat) (cb : Frame → Bool) (s : RState) (p : List Nat) (buf : Frame)
    (hfill : s.filling = some buf)
    (hle : buf.data.length + (payloadOf p).length ≤ cap)
    (heof : eofBit p = true) :
    fillStep cap cb s p
      = { deliverFrame cb s ⟨buf.data ++ payloadOf p, buf.errFlag || errBit p⟩ with
            filling := none } := by
  simp [fillStep, hfill, Nat.not_lt.mpr hle, heof]

theorem midPacket_spec {fid : Bool} {p : List Nat} (h : midPacket fid p = true) :
    headerValid p = true ∧ fidBit p = fid ∧ eofBit p = false := by
  simp [midPacket, Bool.and_eq_true] at h
  exact ⟨h.1.1, h.1.2, h.2⟩

theorem eofPacket_spec {fid : Bool} {p : List Nat} (h : eofPacket fid p = true) :
    headerValid p = true ∧ fidBit p = fid ∧ eofBit p = true := by
  simp [eofPacket, Bool.and_eq_true] at h
  exact ⟨h.1.1, h.1.2, h.2⟩

theorem runData_cons (p : List Nat) (ps : List (List Nat)) :
    runData (p :: ps) = payloadOf p ++ runData ps := by
  simp [runData]

theorem runData_single (p : List Nat) : runData [p] = payloadOf p := by
  simp [runData]

theorem runErr_cons (p : List Nat) (ps : List (List Nat)) :
    runErr (p :: ps) = (errBit p || runErr ps) := by
  simp [runErr]

theorem runErr_single (p : List Nat) : runErr [p] = errBit p := by
  simp [runErr]

theorem processPackets_skip (cap : Nat) (cb : Frame → Bool) :
    ∀ (ps : List (List Nat)) (s : RState) (fid : Bool),
      s.filling = none → s.lastFid = some fid →
      (∀ p ∈ ps, headerValid p = false ∨ fidBit p = fid) →
      processPackets cap cb s ps = s := by
  intro ps
  induction ps with
  | nil => intro s fid _ _ _; rfl
  | cons p rest ih =>
    intro s fid hfill hlf hall
    have hp : headerValid p = false ∨ s.lastFid = some (fidBit p) := by
      rcases hall p (by simp) with h | h
      · exact Or.inl h
      · exact Or.inr (by rw [hlf, h])
    rw [processPackets_cons, processPacket_skip cap cb s p hfill hp]
    exact ih s fid hfill hlf (fun q hq => hall q (by simp [hq]))

theorem fillRun (cap : Nat) (cb : Frame → Bool) (fid : Bool) :
    ∀ (body : List (List Nat)) (s : RState) (buf : Frame) (lastp : List Nat),
      s.filling = some buf → s.lastFid = some fid →
      (∀ p ∈ body, midPacket fid p = true) → eofPacket fid lastp = true →
      buf.data.length + (runData (body ++ [lastp])).length ≤ cap →
      processPackets cap cb s (body ++ [lastp])
        = { deliverFrame cb s
              ⟨buf.data ++ runData (body ++ [lastp]),
               buf.errFlag || runErr (body ++ [lastp])⟩ with
              filling := none } := by
  intro body
  induction body with
  | nil =>
    intro s buf lastp hfill hlf hmid heof hcap
    obtain ⟨hv, hf, he⟩ := eofPacket_spec heof
    simp only [List.nil_append] at hcap ⊢
    rw [runData_single] at hcap
    have hlf2 : s.lastFid = some (fidBit lastp) := by rw [hf]; exact hlf
    rw [show processPackets cap cb s [lastp] = processPacket cap cb s lastp from rfl,
        processPacket_cont cap cb s lastp hv hlf2,
        fillStep_eof cap cb s lastp buf hfill hcap he,
        runData_single, runErr_single]
  | cons q qs ih =>
    intro s buf lastp hfill hlf hmid heof hcap
    obtain ⟨hvq, hfq, heq⟩ := midPacket_spec (hmid q (by simp))
    simp only [List.cons_append] at hcap ⊢
    rw [runData_cons] at hcap
    have hlenq : buf.data.length + (payloadOf q).length ≤ cap := by
      rw [List.length_append] at hcap; omega
    have hlf2 : s.lastFid = some (fidBit q) := by rw [hfq]; exact hlf
    rw [processPackets_cons, processPacket_cont cap cb s q hvq hlf2,
        fillStep_mid cap cb s q buf hfill hlenq heq]
    set buf2 : Frame := ⟨buf.data ++ payloadOf q, buf.errFlag || errBit q⟩ with hbuf2
    have hih := ih { s with filling := some buf2 } buf2 lastp rfl hlf
      (fun p hp => hmid p (by simp [hp])) heof
      (by rw [hbuf2]; simp only [List.length_append] at hcap ⊢; omega)
    rw [hih]
    have hfr : (⟨buf2.data ++ runData (qs ++ [lastp]),
                 buf2.errFlag || runErr (qs ++ [lastp])⟩ : Frame)
        = ⟨buf.data ++ runData (q :: (qs ++ [lastp])),
           buf.errFlag || runErr (q :: (qs ++ [lastp]))⟩ := by
      rw [hbuf2, runData_cons, runErr_cons]
      simp [List.append_assoc, Bool.or_assoc]
    rw [hfr]
    cases hcb : cb ⟨buf.data ++ runData (q :: (qs ++ [lastp])),
                   buf.errFlag || runErr (q :: (qs ++ [lastp]))⟩ <;>
      simp [deliverFrame, hcb]

theorem fillRunOverflow (cap : Nat) (cb : Frame → Bool) (fid : Bool) :
    ∀ (body : List (List Nat)) (s : RState) (buf : Frame) (lastp : List Nat),
      s.filling = some buf → s.lastFid = some fid →
      (∀ p ∈ body, midPacket fid p = true) → eofPacket fid lastp = true →
      cap < buf.data.length + (runData (body ++ [lastp])).length →
      processPackets cap cb s (body ++ [lastp])
        = { s with filling := none, freeCount := s.freeCount + 1,
                   events := s.events
                     ++ [uvc_host_dev_event.UVC_HOST_FRAME_BUFFER_OVERFLOW] } := by
  intro body
  induction body with
  | nil =>
    intro s buf lastp hfill hlf hmid heof hcap
    obtain ⟨hv, hf, _⟩ := eofPacket_spec heof
    simp only [List.nil_append] at hcap ⊢
    rw [runData_single] at hcap
    have hlf2 : s.lastFid = some (fidBit lastp) := by rw [hf]; exact hlf
    rw [show processPackets cap cb s [lastp] = processPacket cap cb s lastp from rfl,
        processPacket_cont cap cb s lastp hv hlf2,
        fillStep_over cap cb s lastp buf hfill hcap]
  | cons q qs ih =>
    intro s buf lastp hfill hlf hmid heof hcap
    obtain ⟨hvq, hfq, heq⟩ := midPacket_spec (hmid q (by simp))
    simp only [List.cons_append] at hcap ⊢
    rw [runData_cons] at hcap
    have hlf2 : s.lastFid = some (fidBit q) := by rw [hfq]; exact hlf
    by_cases hq : cap < buf.data.length + (payloadOf q).length
    · rw [processPackets_cons, processPacket_cont cap cb s q hvq hlf2,
          fillStep_over cap cb s q buf hfill hq]
      exact processPackets_skip cap cb (qs ++ [lastp]) _ fid rfl hlf
        (by
          intro p hp
          rcases List.mem_append.mp hp with h | h
          · exact Or.inr (midPacket_spec (hmid p (by simp [h]))).2.1
          · have : p = lastp := by simpa using h
            exact Or.inr (by rw [this]; exact (eofPacket_spec heof).2.1))
    · rw [processPackets_cons, processPacket_cont cap cb s q hvq hlf2,
          fillStep_mid cap cb s q buf hfill (Nat.not_lt.mp hq) heq]
      set buf2 : Frame := ⟨buf.data ++ payloadOf q, buf.errFlag || errBit q⟩ with hbuf2
      have hih := ih { s with filling := some buf2 } buf2 lastp rfl hlf
        (fun p hp => hmid p (by simp [hp])) heof
        (by rw [hbuf2]; simp only [List.length_append] at hcap ⊢; omega)
      rw [hih]

theorem processPackets_shift (cap : Nat) (cb : Frame → Bool) (s : RState)
    (p : List Nat) (rest : List (List Nat))
    (hv : headerValid p = true) (hfill : s.filling = none)
    (hlf : s.lastFid ≠ some (fidBit p)) (hfc : 1 ≤ s.freeCount) :
    processPackets cap cb s (p :: rest)
      = processPackets cap cb
          { s with freeCount := s.freeCount - 1, lastFid := some (fidBit p),
                   filling := some ⟨[], false⟩ } (p :: rest) := by
  rw [processPackets_cons, processPackets_cons,
      processPacket_start cap cb s p hv hfill hlf hfc,
      processPacket_cont cap cb _ p hv rfl]

theorem processRun (cap : Nat) (cb : Frame → Bool) (fid : Bool) (s : RState)
    (body : List (List Nat)) (lastp : List Nat)
    (hfill : s.filling = none) (hlf : s.lastFid ≠ some fid) (hfc : 1 ≤ s.freeCount)
    (hmid : ∀ p ∈ body, midPacket fid p = true) (heof : eofPacket fid lastp = true)
    (hcap : (runData (body ++ [lastp])).length ≤ cap) :
    processPackets cap cb s (body ++ [lastp])
      = afterRun cb s fid ⟨runData (body ++ [lastp]), runErr (body ++ [lastp])⟩ := by
  have hrun : processPackets cap cb s (body ++ [lastp])
      = { deliverFrame cb
            { s with freeCount := s.freeCount - 1, lastFid := some fid,
                     filling := some ⟨[], false⟩ }
            ⟨runData (body ++ [lastp]), runErr (body ++ [lastp])⟩ with
          filling := none } := by
    cases body with
    | nil =>
      obtain ⟨hv, hf, _⟩ := eofPacket_spec heof
      have hlf2 : s.lastFid ≠ some (fidBit lastp) := by rw [hf]; exact hlf
      simp only [List.nil_append]
      rw [show ([lastp] : List (List Nat)) = lastp :: [] from rfl,
          processPackets_shift cap cb s lastp [] hv hfill hlf2 hfc]
      have := fillRun cap cb fid []
        { s with freeCount := s.freeCount - 1, lastFid := some (fidBit lastp),
                 filling := some ⟨[], false⟩ }
        ⟨[], false⟩ lastp rfl (by rw [hf]) (by simp) heof (by simpa using hcap)
      simp only [List.nil_append] at this
      rw [this, hf]
      simp
    | cons q qs =>
      obtain ⟨hv, hf, _⟩ := midPacket_spec (hmid q (by simp))
      have hlf2 : s.lastFid ≠ some (fidBit q) := by rw [hf]; exact hlf
      simp only [List.cons_append]
      rw [processPackets_shift cap cb s q (qs ++ [lastp]) hv hfill hlf2 hfc]
      have := fillRun cap cb fid (q :: qs)
        { s with freeCount := s.freeCount - 1, lastFid := some (fidBit q),
                 filling := some ⟨[], false⟩ }
        ⟨[], false⟩ lastp rfl (by rw [hf]) hmid heof (by simpa using hcap)
      simp only [List.cons_append] at this
      rw [this, hf]
      simp
  rw [hrun]
  cases hcb : cb ⟨runData (body ++ [lastp]), runErr (body ++ [lastp])⟩ <;>
    simp [afterRun, deliverFrame, hcb]

theorem processRunOverflow (cap : Nat) (cb : Frame → Bool) (fid : Bool) (s : RState)
    (body : List (List Nat)) (lastp : List Nat)
    (hfill : s.filling = none) (hlf : s.lastFid ≠ some fid) (hfc : 1 ≤ s.freeCount)
    (hmid : ∀ p ∈ body, midPacket fid p = true) (heof : eofPacket fid lastp = true)
    (hcap : cap < (runData (body ++ [lastp])).length) :
    processPackets cap cb s (body ++ [lastp])
      = { s with lastFid := some fid,
                 events := s.events
                   ++ [uvc_host_dev_event.UVC_HOST_FRAME_BUFFER_OVERFLOW] } := by
  obtain ⟨fc, dl, fil, lf, fr, ev⟩ := s
  simp only at hfill hlf hfc ⊢
  subst hfill
  have hshift : ∀ (hd : List Nat) (tl : List (List Nat)),
      hd :: tl = body ++ [lastp] → headerValid hd = true → fidBit hd = fid →
      processPackets cap cb (RState.mk fc dl none lf fr ev) (body ++ [lastp])
        = RState.mk fc dl none (some fid) fr
            (ev ++ [uvc_host_dev_event.UVC_HOST_FRAME_BUFFER_OVERFLOW]) := by
    intro hd tl hlist hv hf
    have hlf2 : lf ≠ some (fidBit hd) := by rw [hf]; exact hlf
    have hsh := processPackets_shift cap cb (RState.mk fc dl none lf fr ev) hd tl
      hv rfl hlf2 hfc
    rw [← hlist, hsh, hlist, hf]
    have hov := fillRunOverflow cap cb fid body
      (RState.mk (fc - 1) dl (some ⟨[], false⟩) (some fid) fr ev)
      ⟨[], false⟩ lastp rfl rfl hmid heof (by simpa using hcap)
    show processPackets cap cb
        (RState.mk (fc - 1) dl (some ⟨[], false⟩) (some fid) fr ev) (body ++ [lastp]) = _
    rw [hov]
    simp [Nat.sub_add_cancel hfc]
  cases body with
  | nil =>
    obtain ⟨hv, hf, _⟩ := eofPacket_spec heof
    exact hshift lastp [] rfl hv hf
  | cons q qs =>
    obtain ⟨hv, hf, _⟩ := midPacket_spec (hmid q (by simp))
    exact hshift q (qs ++ [lastp]) rfl hv hf

theorem processRunUnderflow (cap : Nat) (cb : Frame → Bool) (fid : Bool) (s : RState)
    (p0 : List Nat) (rest : List (List Nat))
    (hfill : s.filling = none) (hlf : s.lastFid ≠ some fid) (hfc : s.freeCount = 0)
    (hv : headerValid p0 = true) (hf : fidBit p0 = fid)
    (hrest : ∀ p ∈ rest, headerValid p = false ∨ fidBit p = fid) :
    processPackets cap cb s (p0 :: rest)
      = { s with lastFid := some fid,
                 events := s.events
                   ++ [uvc_host_dev_event.UVC_HOST_FRAME_BUFFER_UNDERFLOW] } := by
  have hlf2 : s.lastFid ≠ some (fidBit p0) := by rw [hf]; exact hlf
  rw [processPackets_cons, processPacket_underflow cap cb s p0 hv hfill hlf2 hfc, hf]
  exact processPackets_skip cap cb rest _ fid hfill rfl hrest

theorem deliverFrame_frames (cb : Frame → Bool) (s : RState) (f : Frame) :
    (deliverFrame cb s f).frames = s.frames ++ [f] := by
  cases hcb : cb f <;> simp [deliverFrame, hcb]

theorem deliverFrame_filling (cb : Frame → Bool) (s : RState) (f : Frame) :
    (deliverFrame cb s f).filling = s.filling := by
  cases hcb : cb f <;> simp [deliverFrame, hcb]

theorem deliverFrame_events (cb : Frame → Bool) (s : RState) (f : Frame) :
    (deliverFrame cb s f).events = s.events := by
  cases hcb : cb f <;> simp [deliverFrame, hcb]

theorem capOKb_iff {cap : Nat} {s : RState} :
    capOKb cap s = true
      ↔ (∀ f ∈ s.frames, f.data.length ≤ cap)
        ∧ (∀ b, s.filling = some b → b.data.length ≤ cap) := by
  cases hfil : s.filling <;> simp [capOKb, hfil, List.all_eq_true]

theorem fillStep_capOK (cap : Nat) (cb : Frame → Bool) (s : RState) (p : List Nat)
    (h : capOKb cap s = true) : capOKb cap (fillStep cap cb s p) = true := by
  obtain ⟨hfr, hfil⟩ := capOKb_iff.mp h
  cases hfill : s.filling with
  | none => rw [fillStep_idle cap cb s p hfill]; exact h
  | some buf =>
    by_cases hov : cap < buf.data.length + (payloadOf p).length
    · rw [fillStep_over cap cb s p buf hfill hov]
      apply capOKb_iff.mpr
      refine ⟨by simpa using hfr, ?_⟩
      intro b hb
      simp at hb
    · have hlen : buf.data.length + (payloadOf p).length ≤ cap := Nat.not_lt.mp hov
      have hbuf : buf.data.length ≤ cap := hfil buf hfill
      by_cases he : eofBit p = true
      · rw [fillStep_eof cap cb s p buf hfill hlen he]
        apply capOKb_iff.mpr
        refine ⟨?_, ?_⟩
        · intro g hg
          have hg2 : g ∈ s.frames ++ [(⟨buf.data ++ payloadOf p,
              buf.errFlag || errBit p⟩ : Frame)] := by
            simpa [deliverFrame_frames] using hg
          rcases List.mem_append.mp hg2 with h1 | h1
          · exact hfr g h1
          · have : g = (⟨buf.data ++ payloadOf p, buf.errFlag || errBit p⟩ : Frame) := by
              simpa using h1
            rw [this]
            simpa [List.length_append] using hlen
        · intro b hb
          simp at hb
      · have he2 : eofBit p = false := by revert he; cases eofBit p <;> simp
        rw [fillStep_mid cap cb s p buf hfill hlen he2]
        apply capOKb_iff.mpr
        refine ⟨by simpa using hfr, ?_⟩
        intro b hb
        have hb2 : b = (⟨buf.data ++ payloadOf p, buf.errFlag || errBit p⟩ : Frame) := by
          simpa using hb.symm
        rw [hb2]
        simpa [List.length_append] using hlen

theorem processPacket_capOK (cap : Nat) (cb : Frame → Bool) (s : RState) (p : List Nat)
    (h : capOKb cap s = true) : capOKb cap (processPacket cap cb s p) = true := by
  obtain ⟨hfr, hfil⟩ := capOKb_iff.mp h
  cases hv : headerValid p with
  | false => rw [processPacket_invalid cap cb s p hv]; exact h
  | true =>
    rw [processPacket]
    simp only [hv, if_true]
    cases hnew : isNewRun s.lastFid (fidBit p) with
    | false =>
      simp only [Bool.false_eq_true, if_false]
      exact fillStep_capOK cap cb s p h
    | true =>
      simp only [if_true]
      have hs1 : capOKb cap (match s.filling with
          | some buf => { deliverFrame cb s buf with filling := none }
          | none => s) = true := by
        cases hfill : s.filling with
        | none => exact h
        | some buf =>
          apply capOKb_iff.mpr
          refine ⟨?_, ?_⟩
          · intro g hg
            have hg2 : g ∈ s.frames ++ [buf] := by
              simpa [deliverFrame_frames] using hg
            rcases List.mem_append.mp hg2 with h1 | h1
            · exact hfr g h1
            · rw [show g = buf by simpa using h1]
              exact hfil buf hfill
          · intro b hb
            simp at hb
      obtain ⟨hfr1, hfil1⟩ := capOKb_iff.mp hs1
      by_cases hz : (match s.filling with
          | some buf => { deliverFrame cb s buf with filling := none }
          | none => s).freeCount = 0
      · simp only [hz, if_true]
        apply capOKb_iff.mpr
        exact ⟨by simpa using hfr1, by intro b hb; exact hfil1 b (by simpa using hb)⟩
      · simp only [hz, if_false]
        apply fillStep_capOK
        apply capOKb_iff.mpr
        refine ⟨by simpa using hfr1, ?_⟩
        intro b hb
        have : b = (⟨[], false⟩ : Frame) := by simpa using hb.symm
        rw [this]
        simp

theorem processPackets_capOK (cap : Nat) (cb : Frame → Bool) :
    ∀ (ps : List (List Nat)) (s : RState),
      capOKb cap s = true → capOKb cap (processPackets cap cb s ps) = true := by
  intro ps
  induction ps with
  | nil => intro s h; exact h
  | cons p rest ih =>
    intro s h
    rw [processPackets_cons]
    exact ih _ (processPacket_capOK cap cb s p h)

theorem AltRunsB_cons {cap : Nat} {prev : Option Bool} {fid : Bool}
    {body : List (List Nat)} {lastp : List Nat}
    {rest : List (Bool × List (List Nat) × List Nat)}
    (h : AltRunsB cap prev ((fid, body, lastp) :: rest) = true) :
    prev ≠ some fid ∧ (∀ p ∈ body, midPacket fid p = true) ∧ eofPacket fid lastp = true
      ∧ (runData (body ++ [lastp])).length ≤ cap ∧ AltRunsB cap (some fid) rest = true := by
  simp only [AltRunsB, Bool.and_eq_true, List.all_eq_true, decide_eq_true_eq] at h
  exact ⟨h.1.1.1.1, h.1.1.1.2, h.1.1.2, h.1.2, h.2⟩

theorem afterRun_frames (cb : Frame → Bool) (s : RState) (fid : Bool) (f : Frame) :
    (afterRun cb s fid f).frames = s.frames ++ [f] := by
  cases hcb : cb f <;> simp [afterRun, deliverFrame, hcb]

theorem afterRun_events (cb : Frame → Bool) (s : RState) (fid : Bool) (f : Frame) :
    (afterRun cb s fid f).events = s.events := by
  cases hcb : cb f <;> simp [afterRun, deliverFrame, hcb]

theorem afterRun_delivered (cb : Frame → Bool) (s : RState) (fid : Bool) (f : Frame) :
    (afterRun cb s fid f).delivered = if cb f then s.delivered else s.delivered + 1 := by
  cases hcb : cb f <;> simp [afterRun, deliverFrame, hcb]

theorem afterRun_freeCount_ge (cb : Frame → Bool) (s : RState) (fid : Bool) (f : Frame) :
    s.freeCount - 1 ≤ (afterRun cb s fid f).freeCount := by
  cases hcb : cb f <;> simp [afterRun, deliverFrame, hcb]

theorem processRuns (cap : Nat) (cb : Frame → Bool) :
    ∀ (runs : List (Bool × List (List Nat) × List Nat)) (s : RState),
      AltRunsB cap s.lastFid runs = true → s.filling = none →
      runs.length ≤ s.freeCount →
      (processPackets cap cb s (runs.map runPkts).flatten).frames
        = s.frames
          ++ runs.map (fun r => Frame.mk (runData (runPkts r)) (runErr (runPkts r)))
      ∧ (processPackets cap cb s (runs.map runPkts).flatten).events = s.events := by
  intro runs
  induction runs with
  | nil =>
    intro s _ _ _
    simp [processPackets]
  | cons r rest ih =>
    obtain ⟨fid, body, lastp⟩ := r
    intro s h hfill hfree
    obtain ⟨hprev, hmid, heof, hcap, hrest⟩ := AltRunsB_cons h
    have hfree2 : rest.length + 1 ≤ s.freeCount := by simpa using hfree
    have hpk : runPkts (fid, body, lastp) = body ++ [lastp] := rfl
    simp only [List.map_cons, List.flatten_cons]
    rw [hpk, processPackets_append]
    have hrun := processRun cap cb fid s body lastp hfill hprev (by omega) hmid heof hcap
    rw [hrun]
    set f : Frame := ⟨runData (body ++ [lastp]), runErr (body ++ [lastp])⟩ with hfdef
    set t1 := afterRun cb s fid f with ht1
    have h1 : t1.lastFid = some fid := rfl
    have h2 : t1.filling = none := rfl
    have h3 : rest.length ≤ t1.freeCount := by
      have hge := afterRun_freeCount_ge cb s fid f
      rw [← ht1] at hge
      omega
    have hih := ih t1 (by rw [h1]; exact hrest) h2 h3
    refine ⟨?_, ?_⟩
    · rw [hih.1, ht1, afterRun_frames, hfdef]
      simp [List.append_assoc]
    · rw [hih.2, ht1, afterRun_events]

/-- C1, counterexample.  The claim says that when the frame callback returns
true the user takes ownership and the engine never reuses the buffer until
uvc_host_frame_return.  Per the header contract it is the opposite: true
means the driver owns the frame again, so the buffer goes straight back to
the free pool without any return call.  Concretely, delivering a frame with
a callback answering true from a state with an empty pool leaves the pool
with one free buffer, where the claim predicts it stays empty. -/
theorem frame_cb_true_user_ownership_false :
    ¬ ((deliverFrame (fun _ => true) (RState.mk 0 0 none none [] []) ⟨[1], false⟩).freeCount
        = (RState.mk 0 0 none none [] []).freeCount) := by
  decide

/-- C1 (amended): the frame callback return value encodes ownership
transfer the other way round: true means the frame was processed and the
driver reclaims the buffer into the free pool immediately (the user must
not call uvc_host_frame_return); false means the user keeps the frame,
the buffer is counted as delivered, and only a later
uvc_host_frame_return hands it back to the pool; returning with no frame
outstanding fails with ESP_FAIL and changes nothing. -/
theorem frame_ownership_transfer (cb : Frame → Bool) (s : RState) (f : Frame) :
    (cb f = true → deliverFrame cb s f
        = { s with frames := s.frames ++ [f], freeCount := s.freeCount + 1 })
    ∧ (cb f = false → deliverFrame cb s f
        = { s with frames := s.frames ++ [f], delivered := s.delivered + 1 })
    ∧ (0 < s.delivered → uvc_host_frame_return s
        = (EspErr.ESP_OK, { s with delivered := s.delivered - 1,
                                   freeCount := s.freeCount + 1 }))
    ∧ (s.delivered = 0 → uvc_host_frame_return s = (EspErr.ESP_FAIL, s)) := by
  refine ⟨?_, ?_, ?_, ?_⟩
  · intro h; simp [deliverFrame, h]
  · intro h; simp [deliverFrame, h]
  · intro h
    have hne : ¬ s.delivered = 0 := by omega
    simp [uvc_host_frame_return, hne]
  · intro h; simp [uvc_host_frame_return, h]

theorem frame_ownership_transfer_witness :
    deliverFrame (fun _ => true) (RState.mk 1 0 none none [] []) ⟨[2], false⟩
      = { RState.mk 1 0 none none [] [] with
            frames := (RState.mk 1 0 none none [] []).frames ++ [⟨[2], false⟩],
            freeCount := (RState.mk 1 0 none none [] []).freeCount + 1 }
    ∧ uvc_host_frame_return (RState.mk 0 2 none none [] [])
      = (EspErr.ESP_OK, { RState.mk 0 2 none none [] [] with
            delivered := (RState.mk 0 2 none none [] []).delivered - 1,
            freeCount := (RState.mk 0 2 none none [] []).freeCount + 1 }) :=
  ⟨(frame_ownership_transfer (fun _ => true) (RState.mk 1 0 none none [] [])
      ⟨[2], false⟩).1 rfl,
   (frame_ownership_transfer (fun _ => true) (RState.mk 0 2 none none [] [])
      ⟨[2], false⟩).2.2.1 (by decide)⟩

/-- C5, counterexample.  The claim says each frame buffer's capacity is the
larger of the user frame_size and the negotiated maximum; the header
documents that a nonzero frame_size is used as given.  With frame_size 100
and dwMaxVideoFrameSize 1000 the capacity is 100, not 1000. -/
theorem frame_buffer_sizing_claim_false :
    frame_buffer_size 100 1000 = 100
    ∧ frame_buffer_size_spec 100 1000 = 1000
    ∧ frame_buffer_size 100 1000 ≠ frame_buffer_size_spec 100 1000 := by
  decide

/-- C5 (amended): at stream-open time each frame buffer's capacity is the
user-specified frame_size when it is nonzero, and the negotiated
dwMaxVideoFrameSize when frame_size is 0; when format negotiation yields
no result, uvc_host_stream_open fails with ESP_ERR_NOT_FOUND. -/
theorem frame_buffer_sizing (fs m : Nat) (d : DriverState)
    (c : uvc_host_stream_config_t) (mem : Bool) :
    (fs ≠ 0 → frame_buffer_size fs m = fs)
    ∧ frame_buffer_size 0 m = m
    ∧ (d.installed = true → cfgValid c = true →
        uvc_host_stream_open d (some c) mem none = (EspErr.ESP_ERR_NOT_FOUND, none, d)) := by
  refine ⟨?_, rfl, ?_⟩
  · intro h; simp [frame_buffer_size, h]
  · intro hI hC; simp [uvc_host_stream_open, hI, hC]

theorem frame_buffer_sizing_witness :
    frame_buffer_size 7 9 = 7
    ∧ uvc_host_stream_open (DriverState.mk true none 0 0)
        (some (uvc_host_stream_config_t.mk 2 0 3 1024)) true none
      = (EspErr.ESP_ERR_NOT_FOUND, none, DriverState.mk true none 0 0) :=
  ⟨(frame_buffer_sizing 7 9 (DriverState.mk true none 0 0)
      (uvc_host_stream_config_t.mk 2 0 3 1024) true).1 (by decide),
   (frame_buffer_sizing 7 9 (DriverState.mk true none 0 0)
      (uvc_host_stream_config_t.mk 2 0 3 1024) true).2.2 rfl (by decide)⟩

/-- C6: a payload packet whose header length byte is invalid (0, or larger
than the packet size) is dropped whole: the reassembler state, the
last-seen FID, the in-progress buffer, the delivered frames and the raised
events are all left unchanged, and processing continues with the next
packet. -/
theorem malformed_header_packet_dropped (cap : Nat) (cb : Frame → Bool)
    (s : RState) (p : List Nat)
    (h : headerLen p = 0 ∨ p.length < headerLen p) :
    processPacket cap cb s p = s := by
  apply processPacket_invalid
  rcases h with h | h
  · simp [headerValid, h]
  · have hn : ¬ headerLen p ≤ p.length := by omega
    simp [headerValid, hn]

theorem malformed_header_packet_dropped_witness :
    (headerLen [255, 1, 9] = 0 ∨ ([255, 1, 9] : List Nat).length < headerLen [255, 1, 9])
    ∧ processPacket 100 (fun _ => false)
        (RState.mk 1 0 (some ⟨[5], false⟩) (some true) [] []) [255, 1, 9]
      = RState.mk 1 0 (some ⟨[5], false⟩) (some true) [] [] :=
  ⟨by decide,
   malformed_header_packet_dropped 100 (fun _ => false)
     (RState.mk 1 0 (some ⟨[5], false⟩) (some true) [] []) [255, 1, 9] (by decide)⟩

/-- C7: uvc_host_stream_stop on a stream that is not streaming, and
uvc_host_stream_close on an already-closed handle, fail with
ESP_ERR_INVALID_STATE and leave the whole stream state unchanged: no life
cycle change, no event, no buffer movement. -/
theorem stop_close_wrong_state_no_side_effect (c : CtrlState) :
    (c.life ≠ StreamLife.STREAMING →
      uvc_host_stream_stop c = (EspErr.ESP_ERR_INVALID_STATE, c))
    ∧ (c.life = StreamLife.CLOSED →
      uvc_host_stream_close c = (EspErr.ESP_ERR_INVALID_STATE, c)) := by
  constructor
  · intro h
    cases hl : c.life with
    | CLOSED => simp [uvc_host_stream_stop, hl]
    | OPENED => simp [uvc_host_stream_stop, hl]
    | STREAMING => exact absurd hl h
  · intro h
    simp [uvc_host_stream_close, h]

theorem stop_close_wrong_state_no_side_effect_witness :
    uvc_host_stream_stop (CtrlState.mk StreamLife.CLOSED (RState.mk 0 0 none none [] []))
      = (EspErr.ESP_ERR_INVALID_STATE,
         CtrlState.mk StreamLife.CLOSED (RState.mk 0 0 none none [] []))
    ∧ uvc_host_stream_close (CtrlState.mk StreamLife.CLOSED (RState.mk 0 0 none none [] []))
      = (EspErr.ESP_ERR_INVALID_STATE,
         CtrlState.mk StreamLife.CLOSED (RState.mk 0 0 none none [] [])) :=
  ⟨(stop_close_wrong_state_no_side_effect
      (CtrlState.mk StreamLife.CLOSED (RState.mk 0 0 none none [] []))).1 (by decide),
   (stop_close_wrong_state_no_side_effect
      (CtrlState.mk StreamLife.CLOSED (RState.mk 0 0 none none [] []))).2 rfl⟩

/-- C8: uvc_host_stream_open fails with ESP_ERR_INVALID_STATE when the
driver is not installed, with ESP_ERR_INVALID_ARG for a NULL or invalid
configuration, with ESP_ERR_NOT_FOUND on format-negotiation failure and
with ESP_ERR_NO_MEM on allocation failure; and on every failure it
produces no stream handle and leaves the driver state unchanged (full
rollback, nothing stays allocated). -/
theorem stream_open_failure_modes (d : DriverState) (c : uvc_host_stream_config_t)
    (cfg : Option uvc_host_stream_config_t) (mem : Bool) (neg : Option Nat) (m0 : Nat) :
    (d.installed = false →
      uvc_host_stream_open d cfg mem neg = (EspErr.ESP_ERR_INVALID_STATE, none, d))
    ∧ (d.installed = true →
      uvc_host_stream_open d none mem neg = (EspErr.ESP_ERR_INVALID_ARG, none, d))
    ∧ (d.installed = true → cfgValid c = false →
      uvc_host_stream_open d (some c) mem neg = (EspErr.ESP_ERR_INVALID_ARG, none, d))
    ∧ (d.installed = true → cfgValid c = true →
      uvc_host_stream_open d (some c) mem none = (EspErr.ESP_ERR_NOT_FOUND, none, d))
    ∧ (d.installed = true → cfgValid c = true →
      uvc_host_stream_open d (some c) false (some m0) = (EspErr.ESP_ERR_NO_MEM, none, d))
    ∧ ((uvc_host_stream_open d cfg mem neg).1 ≠ EspErr.ESP_OK →
      (uvc_host_stream_open d cfg mem neg).2.1 = none
      ∧ (uvc_host_stream_open d cfg mem neg).2.2 = d) := by
  refine ⟨?_, ?_, ?_, ?_, ?_, ?_⟩
  · intro h; simp [uvc_host_stream_open, h]
  · intro h; simp [uvc_host_stream_open, h]
  · intro h1 h2; simp [uvc_host_stream_open, h1, h2]
  · intro h1 h2; simp [uvc_host_stream_open, h1, h2]
  · intro h1 h2; simp [uvc_host_stream_open, h1, h2]
  · intro h
    cases hI : d.installed with
    | false => simp [uvc_host_stream_open, hI]
    | true =>
      cases cfg with
      | none => simp [uvc_host_stream_open, hI]
      | some c2 =>
        cases hv : cfgValid c2 with
        | false => simp [uvc_host_stream_open, hI, hv]
        | true =>
          cases neg with
          | none => simp [uvc_host_stream_open, hI, hv]
          | some mm =>
            cases mem with
            | false => simp [uvc_host_stream_open, hI, hv]
            | true =>
              exfalso
              apply h
              simp [uvc_host_stream_open, hI, hv]

theorem stream_open_failure_modes_witness :
    uvc_host_stream_open (DriverState.mk false none 0 0)
        (some (uvc_host_stream_config_t.mk 2 0 3 1024)) true (some 5)
      = (EspErr.ESP_ERR_INVALID_STATE, none, DriverState.mk false none 0 0)
    ∧ uvc_host_stream_open (DriverState.mk true none 0 0) none true (some 5)
      = (EspErr.ESP_ERR_INVALID_ARG, none, DriverState.mk true none 0 0)
    ∧ uvc_host_stream_open (DriverState.mk true none 0 0)
        (some (uvc_host_stream_config_t.mk 0 0 0 0)) true (some 5)
      = (EspErr.ESP_ERR_INVALID_ARG, none, DriverState.mk true none 0 0)
    ∧ uvc_host_stream_open (DriverState.mk true none 0 0)
        (some (uvc_host_stream_config_t.mk 2 0 3 1024)) true none
      = (EspErr.ESP_ERR_NOT_FOUND, none, DriverState.mk true none 0 0)
    ∧ uvc_host_stream_open (DriverState.mk true none 0 0)
        (some (uvc_host_stream_config_t.mk 2 0 3 1024)) false (some 5)
      = (EspErr.ESP_ERR_NO_MEM, none, DriverState.mk true none 0 0)
    ∧ (uvc_host_stream_open (DriverState.mk false none 0 0)
        (some (uvc_host_stream_config_t.mk 2 0 3 1024)) true (some 5)).2.1 = none
    ∧ (uvc_host_stream_open (DriverState.mk false none 0 0)
        (some (uvc_host_stream_config_t.mk 2 0 3 1024)) true (some 5)).2.2
      = DriverState.mk false none 0 0 :=
  ⟨(stream_open_failure_modes (DriverState.mk false none 0 0)
      (uvc_host_stream_config_t.mk 2 0 3 1024)
      (some (uvc_host_stream_config_t.mk 2 0 3 1024)) true (some 5) 5).1 rfl,
   (stream_open_failure_modes (DriverState.mk true none 0 0)
      (uvc_host_stream_config_t.mk 2 0 3 1024) none true (some 5) 5).2.1 rfl,
   (stream_open_failure_modes (DriverState.mk true none 0 0)
      (uvc_host_stream_config_t.mk 0 0 0 0) none true (some 5) 5).2.2.1 rfl (by decide),
   (stream_open_failure_modes (DriverState.mk true none 0 0)
      (uvc_host_stream_config_t.mk 2 0 3 1024) none true (some 5) 5).2.2.2.1 rfl (by decide),
   (stream_open_failure_modes (DriverState.mk true none 0 0)
      (uvc_host_stream_config_t.mk 2 0 3 1024) none true (some 5) 5).2.2.2.2.1 rfl (by decide),
   ((stream_open_failure_modes (DriverState.mk false none 0 0)
      (uvc_host_stream_config_t.mk 2 0 3 1024)
      (some (uvc_host_stream_config_t.mk 2 0 3 1024)) true (some 5) 5).2.2.2.2.2
      (by decide)).1,
   ((stream_open_failure_modes (DriverState.mk false none 0 0)
      (uvc_host_stream_config_t.mk 2 0 3 1024)
      (some (uvc_host_stream_config_t.mk 2 0 3 1024)) true (some 5) 5).2.2.2.2.2
      (by decide)).2⟩

/-- C9: uvc_host_install treats a NULL driver_config exactly as the default
configuration and never fails with an invalid-argument error: its only
outcomes are ESP_OK, ESP_ERR_INVALID_STATE and ESP_ERR_NO_MEM. -/
theorem install_null_config_uses_default (d : DriverState) (u : Bool)
    (c : Option uvc_host_driver_config_t) (m : Bool) :
    uvc_host_install d u none m = uvc_host_install d u (some uvc_default_driver_config) m
    ∧ ((uvc_host_install d u c m).1 = EspErr.ESP_OK
        ∨ (uvc_host_install d u c m).1 = EspErr.ESP_ERR_INVALID_STATE
        ∨ (uvc_host_install d u c m).1 = EspErr.ESP_ERR_NO_MEM) := by
  refine ⟨rfl, ?_⟩
  cases hI : d.installed <;> cases hU : u <;> cases hM : m <;>
    simp [uvc_host_install, hI, hU, hM]

theorem install_null_config_uses_default_witness :
    uvc_host_install (DriverState.mk false none 0 0) true none true
      = uvc_host_install (DriverState.mk false none 0 0) true
          (some uvc_default_driver_config) true
    ∧ ((uvc_host_install (DriverState.mk false none 0 0) true none true).1 = EspErr.ESP_OK
        ∨ (uvc_host_install (DriverState.mk false none 0 0) true none true).1
            = EspErr.ESP_ERR_INVALID_STATE
        ∨ (uvc_host_install (DriverState.mk false none 0 0) true none true).1
            = EspErr.ESP_ERR_NO_MEM) :=
  ⟨(install_null_config_uses_default (DriverState.mk false none 0 0) true none true).1,
   (install_null_config_uses_default (DriverState.mk false none 0 0) true none true).2⟩

/-- C10: uvc_host_uninstall fails with ESP_ERR_INVALID_STATE and leaves the
driver state unchanged whenever the driver is not installed or at least one
opened stream has not been closed; it succeeds and uninstalls the driver
exactly when the driver is installed and every stream is closed. -/
theorem uninstall_requires_installed_and_all_closed (d : DriverState) :
    ((d.installed = false ∨ d.openStreams ≠ 0) →
      uvc_host_uninstall d = (EspErr.ESP_ERR_INVALID_STATE, d))
    ∧ (d.installed = true → d.openStreams = 0 →
      uvc_host_uninstall d = (EspErr.ESP_OK, { d with installed := false, config := none })) := by
  constructor
  · intro h
    have hc : ¬ (d.installed && d.openStreams == 0) = true := by
      intro hc
      rw [Bool.and_eq_true, beq_iff_eq] at hc
      rcases h with h | h
      · rw [h] at hc; exact Bool.false_ne_true hc.1
      · exact h hc.2
    simp [uvc_host_uninstall, hc]
  · intro h1 h2
    simp [uvc_host_uninstall, h1, h2]

theorem uninstall_requires_installed_and_all_closed_witness :
    uvc_host_uninstall (DriverState.mk false none 0 0)
      = (EspErr.ESP_ERR_INVALID_STATE, DriverState.mk false none 0 0)
    ∧ uvc_host_uninstall (DriverState.mk true (some uvc_default_driver_config) 0 0)
      = (EspErr.ESP_OK,
         { DriverState.mk true (some uvc_default_driver_config) 0 0 with
             installed := false, config := none }) :=
  ⟨(uninstall_requires_installed_and_all_closed (DriverState.mk false none 0 0)).1
      (Or.inl rfl),
   (uninstall_requires_installed_and_all_closed
      (DriverState.mk true (some uvc_default_driver_config) 0 0)).2 rfl rfl⟩

/-- C2, counterexample.  The claim asks only that each FID run contain
exactly one EOF packet and concludes that the emitted frame holds the
payload bytes of all packets of the run.  When the EOF packet is not the
last packet of its run, the frame is completed at the EOF and the
remaining same-FID packets are skipped, so their payload is not included.
Concretely: the run holds packets with header length 2, FID 1, payloads
9 then 7, with EOF on the first packet; its single frame carries payload
9 only, not the concatenation 9, 7. -/
theorem frame_boundary_concat_claim_false :
    runData [[2, 3, 9], [2, 1, 7]] = [9, 7]
    ∧ (processPackets 10 (fun _ => false)
        (RState.mk 1 0 none none [] []) [[2, 3, 9], [2, 1, 7]]).frames.map Frame.data
      = [[9]]
    ∧ ¬ ((processPackets 10 (fun _ => false)
        (RState.mk 1 0 none none [] []) [[2, 3, 9], [2, 1, 7]]).frames.map Frame.data
      = [runData [[2, 3, 9], [2, 1, 7]]]) := by
  decide

/-- C2 (amended): for every sequence of payload packets decomposable into
FID runs whose FID alternates from run to run, where every run consists of
non-EOF packets closed by a single EOF packet as its last packet, every
run's total payload fits the frame buffer capacity, and a free buffer is
available per run, the reassembler emits exactly one frame per FID run
whose data is the concatenation, in packet arrival order, of the
non-header payload bytes of all packets of that run, and raises no
event. -/
theorem frame_boundary_determinism (cap : Nat) (cb : Frame → Bool)
    (runs : List (Bool × List (List Nat) × List Nat)) (s : RState)
    (h : AltRunsB cap s.lastFid runs = true) (hfill : s.filling = none)
    (hfree : runs.length ≤ s.freeCount) :
    (processPackets cap cb s (runs.map runPkts).flatten).frames
      = s.frames ++ runs.map (fun r => Frame.mk (runData (runPkts r)) (runErr (runPkts r)))
    ∧ (processPackets cap cb s (runs.map runPkts).flatten).events = s.events :=
  processRuns cap cb runs s h hfill hfree

theorem frame_boundary_determinism_witness :
    AltRunsB 10 (RState.mk 2 0 none none [] []).lastFid
        [(true, [[2, 1, 5]], [2, 3, 6]), (false, [], [2, 2, 7])] = true
    ∧ (processPackets 10 (fun _ => false) (RState.mk 2 0 none none [] [])
          (([(true, [[2, 1, 5]], [2, 3, 6]), (false, [], [2, 2, 7])].map runPkts)).flatten).frames
        = (RState.mk 2 0 none none [] []).frames
          ++ [(true, [[2, 1, 5]], [2, 3, 6]), (false, [], [2, 2, 7])].map
               (fun r => Frame.mk (runData (runPkts r)) (runErr (runPkts r)))
    ∧ (processPackets 10 (fun _ => false) (RState.mk 2 0 none none [] [])
          (([(true, [[2, 1, 5]], [2, 3, 6]), (false, [], [2, 2, 7])].map runPkts)).flatten).events
        = (RState.mk 2 0 none none [] []).events :=
  ⟨by decide,
   frame_boundary_determinism 10 (fun _ => false)
     [(true, [[2, 1, 5]], [2, 3, 6]), (false, [], [2, 2, 7])]
     (RState.mk 2 0 none none [] []) (by decide) rfl (by decide)⟩

/-- C3: the reassembler never writes past the frame buffer capacity — from
a state whose frames and in-progress buffer respect the capacity, any
packet sequence leads to a state whose frames and in-progress buffer still
respect it — and a FID run whose total payload exceeds the capacity raises
exactly one overflow event, has its buffer returned to the free pool (the
free count is unchanged at the end of the run) and is not delivered (the
frames handed to the user are unchanged). -/
theorem overflow_safety (cap : Nat) (cb : Frame → Bool) (s : RState)
    (ps : List (List Nat)) (fid : Bool) (body : List (List Nat)) (lastp : List Nat) :
    (capOKb cap s = true → capOKb cap (processPackets cap cb s ps) = true)
    ∧ (s.filling = none → s.lastFid ≠ some fid → 1 ≤ s.freeCount →
       (∀ p ∈ body, midPacket fid p = true) → eofPacket fid lastp = true →
       cap < (runData (body ++ [lastp])).length →
       processPackets cap cb s (body ++ [lastp])
         = { s with lastFid := some fid,
                    events := s.events
                      ++ [uvc_host_dev_event.UVC_HOST_FRAME_BUFFER_OVERFLOW] }) :=
  ⟨processPackets_capOK cap cb ps s,
   fun h1 h2 h3 h4 h5 h6 => processRunOverflow cap cb fid s body lastp h1 h2 h3 h4 h5 h6⟩

theorem overflow_safety_witness :
    capOKb 2 (RState.mk 1 0 none none [] []) = true
    ∧ capOKb 2 (processPackets 2 (fun _ => false) (RState.mk 1 0 none none [] [])
        [[2, 1, 5], [2, 1, 6], [2, 3, 7]]) = true
    ∧ processPackets 2 (fun _ => false) (RState.mk 1 0 none none [] [])
        ([[2, 1, 5], [2, 1, 6]] ++ [[2, 3, 7]])
      = { RState.mk 1 0 none none [] [] with
            lastFid := some true,
            events := (RState.mk 1 0 none none [] []).events
              ++ [uvc_host_dev_event.UVC_HOST_FRAME_BUFFER_OVERFLOW] } :=
  ⟨by decide,
   (overflow_safety 2 (fun _ => false) (RState.mk 1 0 none none [] [])
      [[2, 1, 5], [2, 1, 6], [2, 3, 7]] true [[2, 1, 5], [2, 1, 6]] [2, 3, 7]).1 (by decide),
   (overflow_safety 2 (fun _ => false) (RState.mk 1 0 none none [] [])
      [[2, 1, 5], [2, 1, 6], [2, 3, 7]] true [[2, 1, 5], [2, 1, 6]] [2, 3, 7]).2
     rfl (by decide) (by decide) (by decide) (by decide) (by decide)⟩

/-- C4: with all frame buffers delivered to the user and none returned
(free pool empty, N outstanding), the next completed FID run produces
exactly one underflow event and no frame-callback invocation (frames and
delivered count unchanged); and once the user returns one buffer through
uvc_host_frame_return, the following run is assembled and delivered
normally with no further underflow. -/
theorem underflow_safety (cap : Nat) (cb : Frame → Bool) (s : RState) (N : Nat)
    (fid fid2 : Bool) (p0 : List Nat) (rest : List (List Nat))
    (body2 : List (List Nat)) (lastp2 : List Nat)
    (hN : s.delivered = N) (hN1 : 1 ≤ N)
    (hfc : s.freeCount = 0) (hfill : s.filling = none) (hlf : s.lastFid ≠ some fid)
    (hv : headerValid p0 = true) (hf : fidBit p0 = fid)
    (hrest : ∀ p ∈ rest, headerValid p = false ∨ fidBit p = fid)
    (hfid2 : fid2 ≠ fid)
    (hmid2 : ∀ p ∈ body2, midPacket fid2 p = true) (heof2 : eofPacket fid2 lastp2 = true)
    (hcap2 : (runData (body2 ++ [lastp2])).length ≤ cap) :
    processPackets cap cb s (p0 :: rest)
      = { s with lastFid := some fid,
                 events := s.events
                   ++ [uvc_host_dev_event.UVC_HOST_FRAME_BUFFER_UNDERFLOW] }
    ∧ (uvc_host_frame_return (processPackets cap cb s (p0 :: rest))).1 = EspErr.ESP_OK
    ∧ processPackets cap cb (uvc_host_frame_return (processPackets cap cb s (p0 :: rest))).2
        (body2 ++ [lastp2])
      = afterRun cb (uvc_host_frame_return (processPackets cap cb s (p0 :: rest))).2 fid2
          ⟨runData (body2 ++ [lastp2]), runErr (body2 ++ [lastp2])⟩ := by
  obtain ⟨fc, dl, fil, lf, fr, ev⟩ := s
  simp only at hN hfc hfill hlf ⊢
  subst hfill
  subst hfc
  subst hN
  have hne : ¬ dl = 0 := by omega
  have h1 := processRunUnderflow cap cb fid (RState.mk 0 dl none lf fr ev) p0 rest
    rfl hlf rfl hv hf hrest
  refine ⟨h1, ?_, ?_⟩
  · rw [h1]
    simp [uvc_host_frame_return, hne]
  · rw [h1]
    show processPackets cap cb
        (uvc_host_frame_return (RState.mk 0 dl none (some fid) fr
          (ev ++ [uvc_host_dev_event.UVC_HOST_FRAME_BUFFER_UNDERFLOW]))).2
        (body2 ++ [lastp2])
      = afterRun cb
          (uvc_host_frame_return (RState.mk 0 dl none (some fid) fr
            (ev ++ [uvc_host_dev_event.UVC_HOST_FRAME_BUFFER_UNDERFLOW]))).2 fid2
          ⟨runData (body2 ++ [lastp2]), runErr (body2 ++ [lastp2])⟩
    have hs2 : (uvc_host_frame_return (RState.mk 0 dl none (some fid) fr
          (ev ++ [uvc_host_dev_event.UVC_HOST_FRAME_BUFFER_UNDERFLOW]))).2
        = RState.mk 1 (dl - 1) none (some fid) fr
            (ev ++ [uvc_host_dev_event.UVC_HOST_FRAME_BUFFER_UNDERFLOW]) := by
      simp [uvc_host_frame_return, hne]
    rw [hs2]
    apply processRun cap cb fid2 _ body2 lastp2 rfl ?_ ?_ hmid2 heof2 hcap2
    · intro he
      simp only [Option.some.injEq] at he
      exact hfid2 he.symm
    · show (1 : Nat) ≤ 1
      omega

theorem underflow_safety_witness :
    processPackets 10 (fun _ => false) (RState.mk 0 1 none none [] []) ([2, 3, 9] :: [])
      = { RState.mk 0 1 none none [] [] with
            lastFid := some true,
            events := (RState.mk 0 1 none none [] []).events
              ++ [uvc_host_dev_event.UVC_HOST_FRAME_BUFFER_UNDERFLOW] }
    ∧ (uvc_host_frame_return (processPackets 10 (fun _ => false)
        (RState.mk 0 1 none none [] []) ([2, 3, 9] :: []))).1 = EspErr.ESP_OK
    ∧ processPackets 10 (fun _ => false)
        (uvc_host_frame_return (processPackets 10 (fun _ => false)
          (RState.mk 0 1 none none [] []) ([2, 3, 9] :: []))).2 ([] ++ [[2, 2, 7]])
      = afterRun (fun _ => false)
          (uvc_host_frame_return (processPackets 10 (fun _ => false)
            (RState.mk 0 1 none none [] []) ([2, 3, 9] :: []))).2 false
          ⟨runData ([] ++ [[2, 2, 7]]), runErr ([] ++ [[2, 2, 7]])⟩ :=
  underflow_safety 10 (fun _ => false) (RState.mk 0 1 none none [] []) 1 true false
    [2, 3, 9] [] [] [2, 2, 7] rfl (by decide) rfl rfl (by decide) (by decide) (by decide)
    (by decide) (by decide) (by decide) (by decide) (by decide)
